import Mathlib

/-
Verification of the Neon-Pendulum-Animation program (src/animation.py).

The per-frame pipeline of animation.py is shallowly embedded here:
pure float arithmetic is modelled over the reals, Python int
truncation and the built-in round (banker s rounding) are modelled
explicitly, and each pygame draw call is recorded as a primitive in an
ordered list, so that the per-tick render sequence can be reasoned
about symbolically.
-/

namespace NeonPendulum

/-! ### Constants (animation.py lines 6-43) -/

def WIDTH : ℕ := 800
def HEIGHT : ℕ := 600
def FPS : ℕ := 60
def TIME_LIMIT : ℚ := 10

def PENDULUM_ANCHOR : ℝ × ℝ := (400, 100)
def PENDULUM_LENGTH : ℝ := 150
def GRAVITY : ℝ := 0.5
def DAMPING : ℝ := 0.96

noncomputable def math_radians (d : ℝ) : ℝ := d * Real.pi / 180

def HEXAGON_SIDE : ℝ := 20
noncomputable def HEXAGON_ROTATION_SPEED : ℝ := math_radians 3

def TRAIL_LENGTH : ℕ := 8

def LIGHT_BEAM_THRESHOLD : ℝ := 5
noncomputable def LIGHT_BEAM_SPREAD : ℝ := math_radians 30
def BEAM_COUNT : ℕ := 6
def BEAM_LENGTH : ℝ := 100

def GRID_SPACING : ℕ := 15
def GRID_WARP_RADIUS : ℝ := 150

def NUM_VORTEX_PARTICLES : ℕ := 100
def VORTEX_ROTATION_SPEED : ℝ := 0.02
def VORTEX_CENTER : ℝ × ℝ := (400, 300)

def BLACK : ℤ × ℤ × ℤ := (0, 0, 0)
def CYAN : ℤ × ℤ × ℤ := (0, 255, 255)
def PURPLE : ℤ × ℤ × ℤ := (128, 0, 128)
def WHITE : ℤ × ℤ × ℤ := (255, 255, 255)

/-! ### Python numeric primitives -/

/-- Python int() applied to an exact rational: truncation toward zero. -/
def pyInt (q : ℚ) : ℤ := if 0 ≤ q then ⌊q⌋ else -⌊-q⌋

/-- Python int() applied to a real value: truncation toward zero. -/
noncomputable def pyIntR (x : ℝ) : ℝ :=
  if 0 ≤ x then (⌊x⌋ : ℝ) else (-⌊-x⌋ : ℤ)

open Classical in
/-- Python round() on a real value: round half to even (banker s rounding). -/
noncomputable def pyRound (x : ℝ) : ℤ :=
  if Int.fract x = 1/2 then (if Even ⌊x⌋ then ⌊x⌋ else ⌊x⌋ + 1) else round x

/-- math.hypot(dx, dy). -/
noncomputable def math_hypot (dx dy : ℝ) : ℝ := Real.sqrt (dx ^ 2 + dy ^ 2)

/-- math.atan2(y, x), as the argument of the complex number x + y i. -/
noncomputable def math_atan2 (y x : ℝ) : ℝ := Complex.arg ⟨x, y⟩

/-! ### Pendulum integrator (animation.py lines 171-174) -/

structure PendulumState where
  angle : ℝ
  angular_velocity : ℝ
  angular_acceleration : ℝ

/-- One physics step of the main loop (lines 171-174): acceleration from the
pendulum torque, then velocity accumulation and damping, then angle update. -/
noncomputable def pendulumStep (s : PendulumState) : PendulumState :=
  let angular_acceleration := (-GRAVITY / PENDULUM_LENGTH) * Real.sin s.angle
  let angular_velocity := (s.angular_velocity + angular_acceleration) * DAMPING
  let angle := s.angle + angular_velocity
  { angle := angle, angular_velocity := angular_velocity,
    angular_acceleration := angular_acceleration }

/-- The velocity update of lines 172-173 with the damping factor as a
parameter: velocity plus acceleration, then multiplied by damping. -/
def velStep (v a d : ℝ) : ℝ := (v + a) * d

/-- Bob position from the (updated) angle (lines 177-178). -/
noncomputable def bobPosition (a : ℝ) : ℝ × ℝ :=
  (PENDULUM_ANCHOR.1 + PENDULUM_LENGTH * Real.sin a,
   PENDULUM_ANCHOR.2 + PENDULUM_LENGTH * Real.cos a)

/-! ### Claim theorems (physics) -/

/-- C1: one integrator tick computes, in order, the angular acceleration
-(gravity/length)*sin(angle), then the damped angular velocity
(velocity + acceleration)*damping, then angle + velocity; and from
angle = pi/4, velocity = 0 with the reference constants, after one tick the
three state values equal those expressions within 1e-9. -/
theorem C1_integrator_tick :
    (∀ s : PendulumState,
      (pendulumStep s).angular_acceleration
          = -(GRAVITY / PENDULUM_LENGTH) * Real.sin s.angle ∧
      (pendulumStep s).angular_velocity
          = (s.angular_velocity + (pendulumStep s).angular_acceleration) * DAMPING ∧
      (pendulumStep s).angle = s.angle + (pendulumStep s).angular_velocity) ∧
    (|(pendulumStep ⟨Real.pi / 4, 0, 0⟩).angular_acceleration
        - (-(GRAVITY / PENDULUM_LENGTH) * Real.sin (Real.pi / 4))| ≤ 1e-9 ∧
     |(pendulumStep ⟨Real.pi / 4, 0, 0⟩).angular_velocity
        - (-(GRAVITY / PENDULUM_LENGTH) * Real.sin (Real.pi / 4)) * DAMPING| ≤ 1e-9 ∧
     |(pendulumStep ⟨Real.pi / 4, 0, 0⟩).angle
        - (Real.pi / 4
            + (-(GRAVITY / PENDULUM_LENGTH) * Real.sin (Real.pi / 4)) * DAMPING)| ≤ 1e-9) := by
  constructor
  · intro s
    refine ⟨?_, ?_, ?_⟩
    all_goals (simp [pendulumStep]; try ring)
  · refine ⟨?_, ?_, ?_⟩
    all_goals (simp only [pendulumStep]; ring_nf; norm_num)

/-- C7: with the acceleration term zero, the damped velocity update does not
increase the magnitude of the angular velocity for any damping factor in
(0,1), and strictly decreases it when the velocity is nonzero; the
integrator velocity update is exactly velStep at the damping constant. -/
theorem C7_damping_monotone :
    (∀ s : PendulumState,
      (pendulumStep s).angular_velocity
        = velStep s.angular_velocity ((-GRAVITY / PENDULUM_LENGTH) * Real.sin s.angle)
            DAMPING) ∧
    ∀ d v : ℝ, 0 < d → d < 1 →
      |velStep v 0 d| ≤ |v| ∧ (v ≠ 0 → |velStep v 0 d| < |v|) := by
  constructor
  · intro s; rfl
  · intro d v hd hd1
    have hv : velStep v 0 d = v * d := by simp [velStep]
    constructor
    · rw [hv, abs_mul]
      calc |v| * |d| ≤ |v| * 1 := by
            apply mul_le_mul_of_nonneg_left _ (abs_nonneg v)
            rw [abs_of_pos hd]; exact le_of_lt hd1
        _ = |v| := mul_one _
    · intro hvne
      rw [hv, abs_mul]
      have h1 : |d| < 1 := by rw [abs_of_pos hd]; exact hd1
      have h2 : 0 < |v| := abs_pos.mpr hvne
      calc |v| * |d| < |v| * 1 := by exact mul_lt_mul_of_pos_left h1 h2
        _ = |v| := mul_one _

/-- Witness for C7 at damping 0.96 and velocity 1. -/
theorem C7_damping_monotone_witness :
    (0:ℝ) < 0.96 ∧ (0.96:ℝ) < 1 ∧ |velStep 1 0 0.96| ≤ |(1:ℝ)| :=
  ⟨by norm_num, by norm_num,
    (C7_damping_monotone.2 0.96 1 (by norm_num) (by norm_num)).1⟩

/-! ### Trail history (animation.py lines 75, 189-191) -/

/-- One trail update of the main loop (lines 189-191): append the new bob
position at the newest end, then, if the capacity is exceeded, pop the
element at the oldest end. -/
def trailPush {α : Type*} (trail : List α) (bob : α) : List α :=
  let t := trail ++ [bob]
  if t.length > TRAIL_LENGTH then t.drop 1 else t

/-- The trail after n ticks, where pos k is the bob position of tick k;
the trail starts empty (line 75). -/
def trailAfter {α : Type*} (pos : ℕ → α) : ℕ → List α
  | 0 => []
  | n + 1 => trailPush (trailAfter pos n) (pos n)

lemma trailAfter_eq {α : Type*} (pos : ℕ → α) (n : ℕ) :
    trailAfter pos n = ((List.range n).map pos).drop (n - TRAIL_LENGTH) := by
  induction n with
  | zero => simp [trailAfter]
  | succ n ih =>
    have hlr : (List.range (n + 1)).map pos = (List.range n).map pos ++ [pos n] := by
      rw [show n + 1 = n.succ from rfl, List.range_succ, List.map_append]; rfl
    have hlen : ((List.range n).map pos).length = n := by simp
    rw [trailAfter, ih, trailPush, hlr]
    by_cases h : n < TRAIL_LENGTH
    · have h0 : n - TRAIL_LENGTH = 0 := by omega
      have h1 : n + 1 - TRAIL_LENGTH = 0 := by omega
      rw [h0, h1, List.drop_zero, List.drop_zero, if_neg]
      simp only [List.length_append, List.length_drop, hlen, List.length_singleton]
      omega
    · have hd : ((List.range n).map pos).drop (n - TRAIL_LENGTH) ++ [pos n]
          = ((List.range n).map pos ++ [pos n]).drop (n - TRAIL_LENGTH) :=
        (List.drop_append_of_le_length
          (by rw [hlen]; omega :
            n - TRAIL_LENGTH ≤ ((List.range n).map pos).length)).symm
      rw [if_pos, hd, List.drop_drop]
      · congr 1
        omega
      · simp only [List.length_append, List.length_drop, hlen, List.length_singleton]
        omega

/-- C3: after t ticks with t at least the trail capacity, the trail has
exactly TRAIL_LENGTH elements and equals the last TRAIL_LENGTH bob
positions in chronological oldest-first order. -/
theorem C3_trail_window {α : Type*} (pos : ℕ → α) (t : ℕ)
    (h : TRAIL_LENGTH ≤ t) :
    (trailAfter pos t).length = TRAIL_LENGTH ∧
    trailAfter pos t = ((List.range t).map pos).drop (t - TRAIL_LENGTH) := by
  refine ⟨?_, trailAfter_eq pos t⟩
  rw [trailAfter_eq]
  simp only [List.length_drop, List.length_map, List.length_range]
  omega

/-- Witness for C3 with positions 0,1,2,... after 10 ticks. -/
theorem C3_trail_window_witness :
    TRAIL_LENGTH ≤ 10 ∧
    (trailAfter (fun k => k) 10).length = TRAIL_LENGTH ∧
    trailAfter (fun k => k) 10
      = ((List.range 10).map (fun k => k)).drop (10 - TRAIL_LENGTH) :=
  ⟨by decide, (C3_trail_window (fun k => k) 10 (by decide)).1,
    (C3_trail_window (fun k => k) 10 (by decide)).2⟩

/-! ### Color interpolation (animation.py lines 52-56) -/

/-- Linear interpolation between colors c1 and c2 at factor t, with each
channel truncated by Python int(). -/
def interpolate_color (c1 c2 : ℤ × ℤ × ℤ) (t : ℚ) : ℤ × ℤ × ℤ :=
  (pyInt ((c1.1 : ℚ) * (1 - t) + (c2.1 : ℚ) * t),
   pyInt ((c1.2.1 : ℚ) * (1 - t) + (c2.2.1 : ℚ) * t),
   pyInt ((c1.2.2 : ℚ) * (1 - t) + (c2.2.2 : ℚ) * t))

lemma pyInt_intCast (m : ℤ) : pyInt (m : ℚ) = m := by
  unfold pyInt
  split
  · exact Int.floor_intCast m
  · rw [show -(m : ℚ) = ((-m : ℤ) : ℚ) by push_cast; ring, Int.floor_intCast]
    ring

lemma interpolate_color_zero (c1 c2 : ℤ × ℤ × ℤ) :
    interpolate_color c1 c2 0 = c1 := by
  unfold interpolate_color
  simp only [sub_zero, mul_one, mul_zero, add_zero, pyInt_intCast]

/-! ### Render primitives

Each pygame draw call of one frame is recorded as one primitive, in call
order.  Constructors with an A carry an RGBA color and correspond to draws
on a SRCALPHA surface that is then blitted onto the screen. -/

inductive Prim where
  | fill (c : ℤ × ℤ × ℤ)
  | line (c : ℤ × ℤ × ℤ) (a b : ℝ × ℝ) (w : ℕ)
  | lineA (c : ℤ × ℤ × ℤ × ℤ) (a b : ℝ × ℝ) (w : ℕ)
  | polygon (c : ℤ × ℤ × ℤ) (pts : List (ℝ × ℝ))
  | polygonA (c : ℤ × ℤ × ℤ × ℤ) (pts : List (ℝ × ℝ))
  | circle (c : ℤ × ℤ × ℤ) (center : ℝ × ℝ) (rad : ℕ)
  | circleA (c : ℤ × ℤ × ℤ × ℤ) (center : ℝ × ℝ) (rad : ℕ)

/-- The RGB part of the color of an alpha-blended line primitive. -/
def lineAColorOf : Prim → Option (ℤ × ℤ × ℤ)
  | .lineA (r, g, b, _) _ _ _ => some (r, g, b)
  | _ => none

/-! ### Neon trail renderer (animation.py lines 95-110) -/

/-- Segment i of a trail of n points (loop body of lines 102-109): blend
factor t = i / (n - 1), color interpolated from PURPLE to CYAN, alpha
rising with recency, drawn as a width-3 line. -/
def trailSegment (n i : ℕ) (a b : ℝ × ℝ) : Prim :=
  let t : ℚ := (i : ℚ) / ((n : ℚ) - 1)
  let color := interpolate_color PURPLE CYAN t
  let alpha := pyInt (255 * ((i : ℚ) + 1) / (n : ℚ))
  .lineA (color.1, color.2.1, color.2.2, alpha) a b 3

/-- draw_neon_trail (lines 95-110): nothing for fewer than 2 points,
otherwise one alpha line per consecutive pair of points. -/
def draw_neon_trail (pts : List (ℝ × ℝ)) : List Prim :=
  if pts.length < 2 then []
  else
    (List.range (pts.length - 1)).map
      (fun i => trailSegment pts.length i (pts.getD i (0, 0)) (pts.getD (i + 1) (0, 0)))

lemma lineAColorOf_trailSegment (n i : ℕ) (a b : ℝ × ℝ) :
    lineAColorOf (trailSegment n i a b)
      = some (interpolate_color PURPLE CYAN ((i : ℚ) / ((n : ℚ) - 1))) := rfl

/-- C2 counterexample: with a trail of exactly 2 points, the single (hence
last) drawn segment has blend factor 0 and color PURPLE, which differs from
CYAN, refuting that the last segment is drawn exactly in the new color. -/
theorem C2_counterexample :
    (draw_neon_trail [((0:ℝ), (0:ℝ)), ((1:ℝ), (0:ℝ))]).map lineAColorOf
      = [some PURPLE] ∧ PURPLE ≠ CYAN := by
  constructor
  · show List.map lineAColorOf
      (if ([((0:ℝ), (0:ℝ)), ((1:ℝ), (0:ℝ))] : List (ℝ × ℝ)).length < 2 then []
       else (List.range (([((0:ℝ), (0:ℝ)), ((1:ℝ), (0:ℝ))] : List (ℝ × ℝ)).length - 1)).map
        (fun i => trailSegment ([((0:ℝ), (0:ℝ)), ((1:ℝ), (0:ℝ))] : List (ℝ × ℝ)).length i
          (([((0:ℝ), (0:ℝ)), ((1:ℝ), (0:ℝ))] : List (ℝ × ℝ)).getD i (0, 0))
          (([((0:ℝ), (0:ℝ)), ((1:ℝ), (0:ℝ))] : List (ℝ × ℝ)).getD (i + 1) (0, 0))))
      = [some PURPLE]
    rw [if_neg (by decide)]
    show [lineAColorOf (trailSegment 2 0 _ _)] = [some PURPLE]
    rw [lineAColorOf_trailSegment]
    norm_num [interpolate_color_zero]
  · decide

/-- C2 amended: for a trail of N at least 2 points, the first drawn segment
is colored exactly PURPLE (t = 0), while the blend factor of segment i is
i / (N - 1) and the last drawn segment (i = N - 2) is colored
interpolate_color PURPLE CYAN ((N-2)/(N-1)), not exactly CYAN. -/
theorem C2_amended_trail_gradient (pts : List (ℝ × ℝ)) (h : 2 ≤ pts.length) :
    ((draw_neon_trail pts).map lineAColorOf).head? = some (some PURPLE) ∧
    ((draw_neon_trail pts).map lineAColorOf).getLast?
      = some (some (interpolate_color PURPLE CYAN
          (((pts.length : ℚ) - 2) / ((pts.length : ℚ) - 1)))) := by
  obtain ⟨k, hk⟩ : ∃ k, pts.length = k + 2 := ⟨pts.length - 2, by omega⟩
  unfold draw_neon_trail
  simp only [hk]
  rw [if_neg (by omega : ¬ k + 2 < 2), List.map_map,
    show k + 2 - 1 = k + 1 by omega]
  constructor
  · rw [List.range_succ_eq_map, List.map_cons, List.head?_cons]
    simp only [Function.comp_apply, lineAColorOf_trailSegment, Nat.cast_zero,
      zero_div, interpolate_color_zero]
  · rw [List.range_succ, List.map_append, List.map_cons, List.map_nil,
      List.getLast?_concat]
    simp only [Function.comp_apply, lineAColorOf_trailSegment]
    rw [show ((k : ℕ) : ℚ) = ((k + 2 : ℕ) : ℚ) - 2 by push_cast; ring]

/-- Witness for the amended C2 on a concrete 2-point trail. -/
theorem C2_amended_trail_gradient_witness :
    2 ≤ ([((0:ℝ), (0:ℝ)), ((2:ℝ), (0:ℝ))] : List (ℝ × ℝ)).length ∧
    ((draw_neon_trail [((0:ℝ), (0:ℝ)), ((2:ℝ), (0:ℝ))]).map lineAColorOf).head?
      = some (some PURPLE) ∧
    ((draw_neon_trail [((0:ℝ), (0:ℝ)), ((2:ℝ), (0:ℝ))]).map lineAColorOf).getLast?
      = some (some (interpolate_color PURPLE CYAN
          ((((([((0:ℝ), (0:ℝ)), ((2:ℝ), (0:ℝ))] : List (ℝ × ℝ)).length) : ℚ) - 2)
            / (((([((0:ℝ), (0:ℝ)), ((2:ℝ), (0:ℝ))] : List (ℝ × ℝ)).length) : ℚ) - 1)))) :=
  ⟨by decide,
    (C2_amended_trail_gradient [((0:ℝ), (0:ℝ)), ((2:ℝ), (0:ℝ))] (by decide)).1,
    (C2_amended_trail_gradient [((0:ℝ), (0:ℝ)), ((2:ℝ), (0:ℝ))] (by decide)).2⟩

/-! ### Hexagon renderer (animation.py lines 64-71, 86-93) -/

/-- The 6 local hexagon vertices computed at startup (lines 65-70). -/
noncomputable def hexagon_points : List (ℝ × ℝ) :=
  (List.range 6).map (fun (i : ℕ) =>
    (HEXAGON_SIDE * Real.cos (math_radians (60 * (i : ℝ))),
     HEXAGON_SIDE * Real.sin (math_radians (60 * (i : ℝ)))))

/-- draw_hexagon (lines 86-93): rotate each local vertex, translate by the
center, draw the polygon. -/
noncomputable def draw_hexagon (center : ℝ × ℝ) (a : ℝ) (c : ℤ × ℤ × ℤ) : Prim :=
  .polygon c (hexagon_points.map (fun q =>
    (center.1 + (q.1 * Real.cos a - q.2 * Real.sin a),
     center.2 + (q.1 * Real.sin a + q.2 * Real.cos a))))

/-! ### Light beam renderer (animation.py lines 112-126) -/

/-- draw_light_beams (lines 112-126): BEAM_COUNT translucent triangles with
apex at the center, aimed at evenly spaced central angles. -/
noncomputable def draw_light_beams (center : ℝ × ℝ) : List Prim :=
  (List.range BEAM_COUNT).map (fun (i : ℕ) =>
    let central_angle := (i : ℝ) * (2 * Real.pi / (BEAM_COUNT : ℝ))
    let angle1 := central_angle - LIGHT_BEAM_SPREAD / 2
    let angle2 := central_angle + LIGHT_BEAM_SPREAD / 2
    Prim.polygonA (255, 255, 255, 80)
      [center,
       (center.1 + BEAM_LENGTH * Real.cos angle1,
        center.2 + BEAM_LENGTH * Real.sin angle1),
       (center.1 + BEAM_LENGTH * Real.cos angle2,
        center.2 + BEAM_LENGTH * Real.sin angle2)])

/-- Beam draw calls are the alpha-blended polygon primitives; no other
component emits one. -/
def isBeamPrim : Prim → Bool
  | .polygonA _ _ => true
  | _ => false

/-! ### Grid warp renderer (animation.py lines 128-144) -/

/-- The quantized warp radius of line 138: the radius rounded to the
nearest multiple of the grid spacing. -/
noncomputable def warpRoundedR (r : ℝ) : ℝ :=
  (pyRound (r / (GRID_SPACING : ℝ)) : ℝ) * (GRID_SPACING : ℝ)

/-- The remapped position of a warped lattice point (lines 133-140). -/
noncomputable def warpPos (x y cx cy : ℝ) : ℝ × ℝ :=
  let dx := x - cx
  let dy := y - cy
  let r := math_hypot dx dy
  let theta := math_atan2 dy dx
  (cx + warpRoundedR r * Real.cos theta, cy + warpRoundedR r * Real.sin theta)

open Classical in
/-- The dot drawn for lattice point (x, y) (lines 131-143): warped onto a
concentric ring when the distance to the warp center is below the warp
radius and nonzero, otherwise drawn at the raw lattice coordinate. -/
noncomputable def gridPointPrim (cx cy : ℝ) (x y : ℕ) : Prim :=
  let r := math_hypot ((x : ℝ) - cx) ((y : ℝ) - cy)
  if r < GRID_WARP_RADIUS ∧ r ≠ 0 then
    .circleA (50, 50, 50, 150)
      (pyIntR (warpPos x y cx cy).1, pyIntR (warpPos x y cx cy).2) 2
  else
    .circleA (50, 50, 50, 150) ((x : ℝ), (y : ℝ)) 1

/-- Python range(0, stop, step) for positive step. -/
def pyRangeStep (stop step : ℕ) : List ℕ :=
  (List.range ((stop + step - 1) / step)).map (· * step)

/-- draw_warped_grid (lines 128-144): one dot per lattice point, x-major. -/
noncomputable def draw_warped_grid (cx cy : ℝ) : List Prim :=
  (pyRangeStep WIDTH GRID_SPACING).flatMap (fun x =>
    (pyRangeStep HEIGHT GRID_SPACING).map (fun y => gridPointPrim cx cy x y))

/-! ### Vortex particle system (animation.py lines 77-83, 146-153) -/

structure VortexParticle where
  angle : ℝ
  radius : ℝ

/-- update_and_draw_vortex (lines 146-153): each particle angle is
decremented by the rotation step, then the particle is drawn as a 1px dot
at its new position. -/
noncomputable def update_and_draw_vortex (particles : List VortexParticle)
    (center : ℝ × ℝ) : List VortexParticle × List Prim :=
  let updated := particles.map (fun p =>
    ⟨p.angle - VORTEX_ROTATION_SPEED, p.radius⟩)
  (updated, updated.map (fun p =>
    Prim.circle WHITE
      (pyIntR (center.1 + p.radius * Real.cos p.angle),
       pyIntR (center.2 + p.radius * Real.sin p.angle)) 1))

/-! ### Frame orchestrator (animation.py lines 155-213) -/

structure LoopState where
  pend : PendulumState
  hexagon_angle : ℝ
  trail : List (ℝ × ℝ)
  vortex : List VortexParticle

open Classical in
/-- One rendered tick of the main loop while running (lines 167-205):
clear, physics step, rod line, hexagon, trail update and draw, velocity
gated beams, warped grid, vortex; primitives are listed in draw order. -/
noncomputable def frameTick (s : LoopState) : LoopState × List Prim :=
  let ps := pendulumStep s.pend
  let bob := bobPosition ps.angle
  let hexagon_angle := s.hexagon_angle + HEXAGON_ROTATION_SPEED
  let trail := trailPush s.trail bob
  let velocity := |ps.angular_velocity| * PENDULUM_LENGTH
  let beams := if velocity > LIGHT_BEAM_THRESHOLD then draw_light_beams bob else []
  let vortexStep := update_and_draw_vortex s.vortex VORTEX_CENTER
  (⟨ps, hexagon_angle, trail, vortexStep.1⟩,
    Prim.fill BLACK
      :: Prim.line CYAN PENDULUM_ANCHOR bob 2
      :: draw_hexagon bob hexagon_angle CYAN
      :: (draw_neon_trail trail ++ beams ++ draw_warped_grid bob.1 bob.2
            ++ vortexStep.2))

/-- C9: every running tick draws, right after clearing and the physics
update and before the hexagon, a width-2 CYAN line from the fixed anchor
(400, 100) to the bob position computed from the updated angle. -/
theorem C9_rod_line (s : LoopState) :
    (∃ hexPts : List (ℝ × ℝ), ∃ rest : List Prim,
      (frameTick s).2
        = Prim.fill BLACK
          :: Prim.line CYAN PENDULUM_ANCHOR (bobPosition (pendulumStep s.pend).angle) 2
          :: Prim.polygon CYAN hexPts :: rest) ∧
    PENDULUM_ANCHOR = ((400 : ℝ), (100 : ℝ)) :=
  ⟨⟨_, _, rfl⟩, rfl⟩

lemma isBeamPrim_gridPointPrim (cx cy : ℝ) (x y : ℕ) :
    isBeamPrim (gridPointPrim cx cy x y) = false := by
  simp only [gridPointPrim]
  split <;> rfl

lemma any_isBeamPrim_grid (cx cy : ℝ) :
    (draw_warped_grid cx cy).any isBeamPrim = false := by
  rw [List.any_eq_false]
  intro p hp
  simp only [draw_warped_grid, List.mem_flatMap, List.mem_map] at hp
  obtain ⟨x, _, y, _, rfl⟩ := hp
  simp [isBeamPrim_gridPointPrim]

lemma any_isBeamPrim_trail (pts : List (ℝ × ℝ)) :
    (draw_neon_trail pts).any isBeamPrim = false := by
  unfold draw_neon_trail
  split
  · rfl
  · rw [List.any_eq_false]
    intro p hp
    simp only [List.mem_map] at hp
    obtain ⟨i, _, rfl⟩ := hp
    simp only [Bool.not_eq_true]
    rfl

lemma any_isBeamPrim_vortex (particles : List VortexParticle) (c : ℝ × ℝ) :
    (update_and_draw_vortex particles c).2.any isBeamPrim = false := by
  rw [List.any_eq_false]
  intro p hp
  simp only [update_and_draw_vortex, List.mem_map] at hp
  obtain ⟨q, _, rfl⟩ := hp
  simp only [Bool.not_eq_true]
  rfl

lemma any_isBeamPrim_beams (center : ℝ × ℝ) :
    (draw_light_beams center).any isBeamPrim = true := by
  unfold draw_light_beams
  have h0 : (0 : ℕ) ∈ List.range BEAM_COUNT :=
    List.mem_range.mpr (by norm_num [BEAM_COUNT])
  exact List.any_eq_true.mpr ⟨_, List.mem_map_of_mem _ h0, rfl⟩

/-- C4: a tick draws light beam primitives if and only if the updated
angular speed times the pendulum length strictly exceeds the threshold;
below or at the threshold no beam primitive is emitted. -/
theorem C4_beam_gating (s : LoopState) :
    ((frameTick s).2.any isBeamPrim = true)
      ↔ |(pendulumStep s.pend).angular_velocity| * PENDULUM_LENGTH
          > LIGHT_BEAM_THRESHOLD := by
  simp only [frameTick, List.any_cons, List.any_append, any_isBeamPrim_grid,
    any_isBeamPrim_trail, any_isBeamPrim_vortex]
  have hfill : isBeamPrim (Prim.fill BLACK) = false := rfl
  have hline : ∀ a b : ℝ × ℝ, ∀ w : ℕ,
      isBeamPrim (Prim.line CYAN a b w) = false := fun _ _ _ => rfl
  have hhex : ∀ c a q, isBeamPrim (draw_hexagon c a q) = false := fun _ _ _ => rfl
  rw [hfill, hline, hhex]
  by_cases h : |(pendulumStep s.pend).angular_velocity| * PENDULUM_LENGTH
      > LIGHT_BEAM_THRESHOLD
  · rw [if_pos h]
    simp [any_isBeamPrim_beams, h]
  · rw [if_neg h]
    simp [h]

/-! ### Rounding lemmas for the grid warp -/

lemma abs_pyRound_sub_le (x : ℝ) : |(pyRound x : ℝ) - x| ≤ 1/2 := by
  unfold pyRound
  split
  case isTrue h =>
    have h2 : x - ⌊x⌋ = 1/2 := by rw [Int.self_sub_floor, h]
    split
    · rw [abs_sub_comm, h2, abs_of_nonneg (by norm_num : (0:ℝ) ≤ 1/2)]
    · push_cast
      rw [show (⌊x⌋ : ℝ) + 1 - x = 1/2 by linarith,
        abs_of_nonneg (by norm_num : (0:ℝ) ≤ 1/2)]
  case isFalse h =>
    rw [abs_sub_comm]
    exact abs_sub_round x

lemma pyRound_nonneg (x : ℝ) (hx : 0 ≤ x) : 0 ≤ pyRound x := by
  unfold pyRound
  split
  · split
    · exact Int.floor_nonneg.mpr hx
    · have := Int.floor_nonneg.mpr hx
      omega
  · rw [round_eq]
    exact Int.floor_nonneg.mpr (by linarith)

lemma pyRound_nearest (x : ℝ) (k : ℤ) :
    |(pyRound x : ℝ) - x| ≤ |(k : ℝ) - x| := by
  rcases le_or_lt (1/2) |(k : ℝ) - x| with h | h
  · exact (abs_pyRound_sub_le x).trans h
  · have h1 := abs_pyRound_sub_le x
    have h2 : |(k : ℝ) - (pyRound x : ℝ)| < 1 := by
      have h3 : |(k : ℝ) - (pyRound x : ℝ)|
          ≤ |(k : ℝ) - x| + |x - (pyRound x : ℝ)| := abs_sub_le _ _ _
      rw [abs_sub_comm x] at h3
      linarith
    have h4 : |k - pyRound x| < 1 := by
      have h5 : |((k - pyRound x : ℤ) : ℝ)| < 1 := by push_cast; exact h2
      exact_mod_cast h5
    have h6 : k = pyRound x := by
      have := abs_lt.mp h4
      omega
    rw [h6]

lemma pyRound_small_pos (x : ℝ) (h0 : 0 < x) (h1 : x < 1/2) : pyRound x = 0 := by
  have hf : ⌊x⌋ = 0 := Int.floor_eq_zero_iff.mpr ⟨le_of_lt h0, by linarith⟩
  have hfr : Int.fract x ≠ 1/2 := by
    rw [← Int.self_sub_floor, hf]
    push_cast
    intro hc
    linarith
  unfold pyRound
  rw [if_neg hfr, round_eq]
  exact Int.floor_eq_zero_iff.mpr ⟨by linarith, by linarith⟩

lemma math_hypot_mul_cos_sin (R θ : ℝ) (hR : 0 ≤ R) :
    math_hypot (R * Real.cos θ) (R * Real.sin θ) = R := by
  unfold math_hypot
  rw [show (R * Real.cos θ) ^ 2 + (R * Real.sin θ) ^ 2
      = R ^ 2 * (Real.sin θ ^ 2 + Real.cos θ ^ 2) by ring,
    Real.sin_sq_add_cos_sq, mul_one, Real.sqrt_sq hR]

lemma warpRoundedR_nonneg (r : ℝ) (hr : 0 ≤ r) : 0 ≤ warpRoundedR r := by
  unfold warpRoundedR
  have h1 : (0 : ℝ) ≤ (pyRound (r / (GRID_SPACING : ℝ)) : ℝ) := by
    exact_mod_cast pyRound_nonneg _ (div_nonneg hr (by norm_num [GRID_SPACING]))
  exact mul_nonneg h1 (by norm_num [GRID_SPACING])

/-- C5: for a point at positive distance r from the warp center, below the
warp radius, the remap places it at bob + roundedR * (cos theta, sin theta)
with theta = atan2(dy, dx); its distance from the center equals roundedR,
and roundedR is a nearest multiple of the grid spacing to r. -/
theorem C5_grid_warp_quantization (x y cx cy : ℝ) (k : ℤ)
    (h0 : 0 < math_hypot (x - cx) (y - cy))
    (_hw : math_hypot (x - cx) (y - cy) < GRID_WARP_RADIUS) :
    warpPos x y cx cy
      = (cx + warpRoundedR (math_hypot (x - cx) (y - cy))
            * Real.cos (math_atan2 (y - cy) (x - cx)),
         cy + warpRoundedR (math_hypot (x - cx) (y - cy))
            * Real.sin (math_atan2 (y - cy) (x - cx))) ∧
    math_hypot ((warpPos x y cx cy).1 - cx) ((warpPos x y cx cy).2 - cy)
      = warpRoundedR (math_hypot (x - cx) (y - cy)) ∧
    |warpRoundedR (math_hypot (x - cx) (y - cy)) - math_hypot (x - cx) (y - cy)|
      ≤ |(k : ℝ) * (GRID_SPACING : ℝ) - math_hypot (x - cx) (y - cy)| := by
  have hR : 0 ≤ warpRoundedR (math_hypot (x - cx) (y - cy)) :=
    warpRoundedR_nonneg _ h0.le
  refine ⟨rfl, ?_, ?_⟩
  · have h1 : (warpPos x y cx cy).1 - cx
        = warpRoundedR (math_hypot (x - cx) (y - cy))
            * Real.cos (math_atan2 (y - cy) (x - cx)) := by
      show cx + warpRoundedR (math_hypot (x - cx) (y - cy))
          * Real.cos (math_atan2 (y - cy) (x - cx)) - cx = _
      ring
    have h2 : (warpPos x y cx cy).2 - cy
        = warpRoundedR (math_hypot (x - cx) (y - cy))
            * Real.sin (math_atan2 (y - cy) (x - cx)) := by
      show cy + warpRoundedR (math_hypot (x - cx) (y - cy))
          * Real.sin (math_atan2 (y - cy) (x - cx)) - cy = _
      ring
    rw [h1, h2]
    exact math_hypot_mul_cos_sin _ _ hR
  · have h15 : (0 : ℝ) < (GRID_SPACING : ℝ) := by norm_num [GRID_SPACING]
    have key : ∀ a : ℝ, a * (GRID_SPACING : ℝ) - math_hypot (x - cx) (y - cy)
        = (a - math_hypot (x - cx) (y - cy) / (GRID_SPACING : ℝ))
            * (GRID_SPACING : ℝ) := by
      intro a
      field_simp
    unfold warpRoundedR
    rw [key ((pyRound (math_hypot (x - cx) (y - cy) / (GRID_SPACING : ℝ)) : ℝ)),
      key ((k : ℤ) : ℝ), abs_mul, abs_mul, abs_of_pos h15]
    exact mul_le_mul_of_nonneg_right
      (pyRound_nearest (math_hypot (x - cx) (y - cy) / (GRID_SPACING : ℝ)) k) h15.le

/-- Witness for C5 at the point (3, 4) with warp center (0, 0), where the
distance is 5, and with the competing multiple index k = 7. -/
theorem C5_grid_warp_quantization_witness :
    (0 < math_hypot ((3:ℝ) - 0) ((4:ℝ) - 0)) ∧
    (math_hypot ((3:ℝ) - 0) ((4:ℝ) - 0) < GRID_WARP_RADIUS) ∧
    (warpPos 3 4 0 0
      = (0 + warpRoundedR (math_hypot ((3:ℝ) - 0) ((4:ℝ) - 0))
            * Real.cos (math_atan2 ((4:ℝ) - 0) ((3:ℝ) - 0)),
         0 + warpRoundedR (math_hypot ((3:ℝ) - 0) ((4:ℝ) - 0))
            * Real.sin (math_atan2 ((4:ℝ) - 0) ((3:ℝ) - 0))) ∧
    math_hypot ((warpPos 3 4 0 0).1 - 0) ((warpPos 3 4 0 0).2 - 0)
      = warpRoundedR (math_hypot ((3:ℝ) - 0) ((4:ℝ) - 0)) ∧
    |warpRoundedR (math_hypot ((3:ℝ) - 0) ((4:ℝ) - 0))
        - math_hypot ((3:ℝ) - 0) ((4:ℝ) - 0)|
      ≤ |((7 : ℤ) : ℝ) * (GRID_SPACING : ℝ)
          - math_hypot ((3:ℝ) - 0) ((4:ℝ) - 0)|) := by
  have h25 : math_hypot ((3:ℝ) - 0) ((4:ℝ) - 0) = 5 := by
    unfold math_hypot
    rw [show ((3:ℝ) - 0) ^ 2 + ((4:ℝ) - 0) ^ 2 = 25 by norm_num,
      show (25:ℝ) = 5 ^ 2 by norm_num, Real.sqrt_sq (by norm_num : (0:ℝ) ≤ 5)]
  have h0 : 0 < math_hypot ((3:ℝ) - 0) ((4:ℝ) - 0) := by
    rw [h25]; norm_num
  have hw : math_hypot ((3:ℝ) - 0) ((4:ℝ) - 0) < GRID_WARP_RADIUS := by
    rw [h25]; norm_num [GRID_WARP_RADIUS]
  exact ⟨h0, hw, C5_grid_warp_quantization 3 4 0 0 7 h0 hw⟩

/-- C8: a lattice point exactly at the warp center has r = 0, never takes
the warp branch, and is drawn unwarped at its raw lattice coordinate. -/
theorem C8_center_point_unwarped (cx cy : ℝ) (x y : ℕ)
    (hx : (x : ℝ) = cx) (hy : (y : ℝ) = cy) :
    gridPointPrim cx cy x y
      = Prim.circleA (50, 50, 50, 150) ((x : ℝ), (y : ℝ)) 1 := by
  simp only [gridPointPrim]
  rw [if_neg]
  intro hc
  apply hc.2
  rw [hx, hy]
  simp [math_hypot]

/-- Witness for C8 with the warp center on the lattice point (15, 30). -/
theorem C8_center_point_unwarped_witness :
    ((15 : ℕ) : ℝ) = (15 : ℝ) ∧ ((30 : ℕ) : ℝ) = (30 : ℝ) ∧
    gridPointPrim 15 30 15 30
      = Prim.circleA (50, 50, 50, 150) (((15 : ℕ) : ℝ), ((30 : ℕ) : ℝ)) 1 :=
  ⟨by norm_num, by norm_num,
    C8_center_point_unwarped 15 30 15 30 (by norm_num) (by norm_num)⟩

/-- C10: a point at positive distance less than half the grid spacing from
the warp center quantizes to radius 0, so its warped position is exactly
the warp center. -/
theorem C10_warp_collapse (x y cx cy : ℝ)
    (h0 : 0 < math_hypot (x - cx) (y - cy))
    (hh : math_hypot (x - cx) (y - cy) < (GRID_SPACING : ℝ) / 2) :
    warpRoundedR (math_hypot (x - cx) (y - cy)) = 0 ∧
    warpPos x y cx cy = (cx, cy) := by
  have h15 : (0 : ℝ) < (GRID_SPACING : ℝ) := by norm_num [GRID_SPACING]
  have hz : pyRound (math_hypot (x - cx) (y - cy) / (GRID_SPACING : ℝ)) = 0 := by
    apply pyRound_small_pos
    · exact div_pos h0 h15
    · rw [div_lt_iff₀ h15]
      calc math_hypot (x - cx) (y - cy) < (GRID_SPACING : ℝ) / 2 := hh
        _ = 1 / 2 * (GRID_SPACING : ℝ) := by ring
  have hzero : warpRoundedR (math_hypot (x - cx) (y - cy)) = 0 := by
    unfold warpRoundedR
    rw [hz]
    norm_num
  refine ⟨hzero, ?_⟩
  have hpos : warpPos x y cx cy
      = (cx + warpRoundedR (math_hypot (x - cx) (y - cy))
            * Real.cos (math_atan2 (y - cy) (x - cx)),
         cy + warpRoundedR (math_hypot (x - cx) (y - cy))
            * Real.sin (math_atan2 (y - cy) (x - cx))) := rfl
  rw [hpos, hzero]
  norm_num

/-- Witness for C10 at the point (3, 4) with warp center (0, 0): the
distance 5 is below half the grid spacing 7.5, and the point collapses. -/
theorem C10_warp_collapse_witness :
    (0 < math_hypot ((3:ℝ) - 0) ((4:ℝ) - 0)) ∧
    (math_hypot ((3:ℝ) - 0) ((4:ℝ) - 0) < (GRID_SPACING : ℝ) / 2) ∧
    (warpRoundedR (math_hypot ((3:ℝ) - 0) ((4:ℝ) - 0)) = 0 ∧
     warpPos 3 4 0 0 = ((0 : ℝ), (0 : ℝ))) := by
  have h25 : math_hypot ((3:ℝ) - 0) ((4:ℝ) - 0) = 5 := by
    unfold math_hypot
    rw [show ((3:ℝ) - 0) ^ 2 + ((4:ℝ) - 0) ^ 2 = 25 by norm_num,
      show (25:ℝ) = 5 ^ 2 by norm_num, Real.sqrt_sq (by norm_num : (0:ℝ) ≤ 5)]
  have h0 : 0 < math_hypot ((3:ℝ) - 0) ((4:ℝ) - 0) := by
    rw [h25]; norm_num
  have hh : math_hypot ((3:ℝ) - 0) ((4:ℝ) - 0) < (GRID_SPACING : ℝ) / 2 := by
    rw [h25]; norm_num [GRID_SPACING]
  exact ⟨h0, hh, C10_warp_collapse 3 4 0 0 h0 hh⟩

/-! ### Loop termination (animation.py lines 156-215)

The while loop keeps a running flag; each iteration drains quit events
(lines 163-165) and, after rendering, compares the elapsed wall-clock time
against the time limit (lines 207-210).  quit n tells whether a quit event
arrived during iteration n, elapsed n is the elapsed time in seconds read
at the end of iteration n. -/

/-- Whether the loop is still running after n complete iterations. -/
def runningAfter (quit : ℕ → Bool) (elapsed : ℕ → ℚ) (limit : ℚ) : ℕ → Bool
  | 0 => true
  | n + 1 =>
      runningAfter quit elapsed limit n && !(quit n)
        && !(decide (elapsed n > limit))

lemma runningAfter_false_succ (quit : ℕ → Bool) (elapsed : ℕ → ℚ) (limit : ℚ)
    (n : ℕ) (h : runningAfter quit elapsed limit n = false) :
    runningAfter quit elapsed limit (n + 1) = false := by
  rw [runningAfter, h]
  rfl

/-- C6: with a fixed per-tick time increment, the loop stops within one
tick of the elapsed time reaching the limit, with or without quit events:
if at iteration m the elapsed time has reached the limit, then after
iteration m + 1 the loop is no longer running. -/
theorem C6_time_limit_termination (quit : ℕ → Bool) (elapsed : ℕ → ℚ)
    (limit d : ℚ) (m : ℕ)
    (hstep : ∀ k, elapsed (k + 1) = elapsed k + d) (hd : 0 < d)
    (hm : limit ≤ elapsed m) :
    runningAfter quit elapsed limit (m + 2) = false := by
  rcases lt_or_eq_of_le hm with hlt | heq
  · apply runningAfter_false_succ
    rw [runningAfter]
    simp [hlt]
  · have h2 : limit < elapsed (m + 1) := by
      rw [hstep m, ← heq]
      linarith
    rw [show m + 2 = (m + 1) + 1 from rfl, runningAfter]
    simp [h2]

/-- Witness for C6 with no quit events, a 5-second tick, and the reference
10-second limit: the elapsed time reaches the limit at iteration 1 and the
loop is stopped after iteration 3. -/
theorem C6_time_limit_termination_witness :
    (0 : ℚ) < 5 ∧
    TIME_LIMIT ≤ (fun n : ℕ => ((n : ℚ) + 1) * 5) 1 ∧
    runningAfter (fun _ => false) (fun n : ℕ => ((n : ℚ) + 1) * 5)
      TIME_LIMIT (1 + 2) = false := by
  refine ⟨by norm_num, by norm_num [TIME_LIMIT], ?_⟩
  exact C6_time_limit_termination (fun _ => false)
    (fun n : ℕ => ((n : ℚ) + 1) * 5) TIME_LIMIT 5 1
    (by intro k; push_cast; ring) (by norm_num)
    (by norm_num [TIME_LIMIT])

end NeonPendulum
